import Mathlib

/-!
Shallow embedding of the folder-note plugin (src/main.ts) and proofs about it.

The plugin layers a "folder note" convention over a hierarchical file browser:
every folder may have an associated note of the same name; clicking the folder
row opens (creating on demand) that note; resolved notes are hidden from the
file listing by a generated style block.

The embedding models:
  * the host vault as an association list from path to entry kind
    (`getAbstractFileByPath` becomes `lookupVault`);
  * `getFolderNote`, `createFolderNote`, `openOrCreateFolderNote` as pure
    functions that additionally record their effects (create requests issued
    to the host, error logging, the `openFile` call);
  * the rendered navigation panel as a function from row path to row state
    (handled-marker flag plus the number of installed click interceptors);
  * the debounce logic as a trace function from event times to recompute times.
-/

namespace FolderNoteView

/-- Kind of an entry in the host vault: `TFile` or `TFolder`
(`getAbstractFileByPath` returns one of these, or null). -/
inductive Entry : Type
  | file
  | folder
deriving DecidableEq, Repr

/-- The host vault: paths mapped to entry kinds. -/
abbrev Vault := List (String × Entry)

/-- `app.vault.getAbstractFileByPath`: the entry at `path`, if any. -/
def lookupVault (vault : Vault) (path : String) : Option Entry :=
  match vault with
  | [] => none
  | (p, e) :: rest => if p = path then some e else lookupVault rest path

/-- A `TFolder`: its path, its name (last path segment), and its parent's
path (`none` models a null `folder.parent`). -/
structure Folder where
  path : String
  name : String
  parentPath : Option String
deriving DecidableEq, Repr

/-- The sibling candidate path computed in `getFolderNote`
(src/main.ts lines 185-190): only when the folder has a parent;
`Parent/Folder.md`, or `Folder.md` when the parent path is "/" or "". -/
def siblingCandidate (folder : Folder) : Option String :=
  match folder.parentPath with
  | none => none
  | some parentPath =>
      some (if parentPath = "/" ∨ parentPath = "" then folder.name ++ ".md"
            else parentPath ++ "/" ++ folder.name ++ ".md")

/-- The inside candidate path computed in `getFolderNote`
(src/main.ts line 198): `Folder/Folder.md`. -/
def insideCandidate (folder : Folder) : String :=
  folder.path ++ "/" ++ folder.name ++ ".md"

/-- `getFolderNote` (src/main.ts lines 180-205): check the sibling location
first, then the inside location; return the first whose entry is a file
(`instanceof TFile`), else none. -/
def getFolderNote (vault : Vault) (folder : Folder) : Option String :=
  match siblingCandidate folder with
  | some siblingPath =>
      if lookupVault vault siblingPath = some Entry.file then some siblingPath
      else if lookupVault vault (insideCandidate folder) = some Entry.file then
        some (insideCandidate folder)
      else none
  | none =>
      if lookupVault vault (insideCandidate folder) = some Entry.file then
        some (insideCandidate folder)
      else none

/-- The note path computed in `createFolderNote` (src/main.ts lines 152-156):
`!parentPath || parentPath === "/" || parentPath === ""` selects the bare
`Folder.md`, otherwise `Parent/Folder.md` — the sibling location. -/
def createNotePath (folder : Folder) : String :=
  match folder.parentPath with
  | none => folder.name ++ ".md"
  | some parentPath =>
      if parentPath = "/" ∨ parentPath = "" then folder.name ++ ".md"
      else parentPath ++ "/" ++ folder.name ++ ".md"

/-- Result of `createFolderNote`: the returned file (null on failure), the
create requests issued to `app.vault.create` as (path, content) pairs, and
whether the catch branch logged an error. -/
structure CreateOut where
  result : Option String
  requests : List (String × String)
  logged : Bool
deriving DecidableEq, Repr

/-- `createFolderNote` (src/main.ts lines 148-172): if a file already exists
at the note path it is returned and no create request is issued; otherwise
`vault.create(notePath, "")` is requested. The host create throws when the
path is occupied by a non-file entry, and may fail for I/O reasons (modelled
by `ioOk`); either failure is caught, logged, and turned into a null result. -/
def createFolderNote (vault : Vault) (ioOk : Bool) (folder : Folder) : CreateOut :=
  let notePath := createNotePath folder
  match lookupVault vault notePath with
  | some Entry.file => ⟨some notePath, [], false⟩
  | some Entry.folder => ⟨none, [(notePath, "")], true⟩
  | none =>
      if ioOk then ⟨some notePath, [(notePath, "")], false⟩
      else ⟨none, [(notePath, "")], true⟩

/-- Result of `openOrCreateFolderNote`: the resolved or created note, the
create requests issued, whether an error was logged, and the `openFile`
call made on the active leaf (none when no note was produced). -/
structure EnsureOut where
  note : Option String
  requests : List (String × String)
  logged : Bool
  opened : Option String
deriving DecidableEq, Repr

/-- `openOrCreateFolderNote` (src/main.ts lines 133-143): resolve via
`getFolderNote`; when none found, fall back to `createFolderNote`; open the
note in the active leaf only when one was produced. -/
def openOrCreateFolderNote (vault : Vault) (ioOk : Bool) (folder : Folder) : EnsureOut :=
  match getFolderNote vault folder with
  | some note => ⟨some note, [], false, some note⟩
  | none =>
      let c := createFolderNote vault ioOk folder
      ⟨c.result, c.requests, c.logged, c.result⟩

/-- Spec-side resolver, written from the spec's words: compute the sibling
candidate path and the inside candidate path per the sibling-then-inside
precedence, query the path lookup for each in order, and return the first
that is a file (not a folder), else none. Used only to compare against
`getFolderNote`. -/
def resolveSpec (vault : Vault) (folder : Folder) : Option String :=
  let candidates :=
    (match siblingCandidate folder with
     | some s => [s]
     | none => []) ++ [insideCandidate folder]
  candidates.find? (fun p => decide (lookupVault vault p = some Entry.file))

/-- The selector list built by the loop in `updateHiddenFolderNotes`
(src/main.ts lines 215-223): for every loaded folder, resolve its note and
push the resolved path (the selector's data-path payload) onto the list. -/
def hideSelectors (vault : Vault) (folders : List Folder) : List String :=
  folders.foldl
    (fun selectors f =>
      match getFolderNote vault f with
      | some note => selectors ++ [note]
      | none => selectors)
    []

/-- The generated style element, reduced to the selector set it carries
(`styleEl.textContent` is a pure function of this list). -/
structure StyleBlock where
  selectors : List String
deriving DecidableEq, Repr

/-- `updateHiddenFolderNotes` (src/main.ts lines 210-236): recompute the
selector list from scratch over all loaded folders and assign it to the style
element wholesale, whatever the previous block held. -/
def updateHiddenFolderNotes (vault : Vault) (folders : List Folder)
    (prev : StyleBlock) : StyleBlock :=
  ⟨hideSelectors vault folders⟩

/-- A rendered folder title row: whether it carries the
`data-folder-note-handled` marker, and how many of the plugin's click
interceptors are installed on it via `addEventListener`. -/
structure Row where
  handled : Bool
  listeners : Nat
deriving DecidableEq, Repr

/-- The rendered navigation panel: at most one title row per folder path
(`querySelector` on the data-path attribute). -/
def Dom : Type := String → Option Row

/-- One iteration of the loop in `attachClickHandlers`
(src/main.ts lines 98-127): find the row for the folder path; if absent,
continue; if already marked handled, skip; otherwise set the marker and
attach one click interceptor. -/
def bindOne (dom : Dom) (path : String) : Dom :=
  match dom path with
  | none => dom
  | some row =>
      if row.handled then dom
      else fun p => if p = path then some ⟨true, row.listeners + 1⟩ else dom p

/-- `attachClickHandlers` (src/main.ts lines 93-128): run `bindOne` over
every loaded folder's path. -/
def attachClickHandlers (folders : List Folder) (dom : Dom) : Dom :=
  folders.foldl (fun d f => bindOne d f.path) dom

/-- A click event on a folder title row, reduced to the single fact the
interceptor inspects: whether the target lies within the collapse
indicator (`target.closest(".nav-folder-collapse-indicator")`). -/
structure ClickEvent where
  onCollapseIndicator : Bool
deriving DecidableEq, Repr

/-- Outcome of one run of the click interceptor: whether the default action
was prevented and propagation stopped, whether `openOrCreateFolderNote` was
requested, the create requests that flowed from it, and the `openFile` call. -/
structure ClickOutcome where
  defaultPrevented : Bool
  propagationStopped : Bool
  ensureRequested : Bool
  requests : List (String × String)
  opened : Option String
deriving DecidableEq, Repr

/-- The click interceptor body (src/main.ts lines 114-126): clicks within the
collapse indicator are ignored so the host's default toggle proceeds; any
other click suppresses the default and runs `openOrCreateFolderNote`. -/
def handleClick (vault : Vault) (ioOk : Bool) (folder : Folder)
    (evt : ClickEvent) : ClickOutcome :=
  if evt.onCollapseIndicator then ⟨false, false, false, [], none⟩
  else
    let r := openOrCreateFolderNote vault ioOk folder
    ⟨true, true, true, r.requests, r.opened⟩

/-- `debouncedUpdate` (src/main.ts lines 36-44): clear any pending timer and
schedule the recompute 100ms from now. `pending` is the scheduled fire time
of the outstanding timer, if any; it is discarded unconditionally. -/
def debouncedUpdate (pending : Option Nat) (now : Nat) : Option Nat :=
  some (now + 100)

/-- Trace semantics of the debounce: given the pending fire time and the
remaining trigger times (ascending), return the times at which the recompute
actually runs. A pending timer whose fire time does not exceed the next
trigger fires first; each trigger then cancels and reschedules; a timer still
pending after the last trigger fires unhindered. -/
def debounceRun : Option Nat → List Nat → List Nat
  | some fireAt, [] => [fireAt]
  | none, [] => []
  | some fireAt, t :: ts =>
      if fireAt ≤ t then fireAt :: debounceRun (debouncedUpdate (some fireAt) t) ts
      else debounceRun (debouncedUpdate (some fireAt) t) ts
  | none, t :: ts => debounceRun (debouncedUpdate none t) ts

/-- The plugin's owned mutable state: the rendered panel, the generated style
element (in `document.head` when present), whether the mutation observer is
connected, and the pending debounce timer. -/
structure PluginState where
  dom : Dom
  styleEl : Option StyleBlock
  observerConnected : Bool
  updateTimeout : Option Nat

/-- `onunload` (src/main.ts lines 46-63): clear the pending timer, remove the
style element, disconnect the observer, and strip the handled-marker from
every row carrying it. Click interceptors installed on rows are not touched
by any line of `onunload`. -/
def onunload (s : PluginState) : PluginState :=
  { dom := fun p => (s.dom p).map (fun r => { r with handled := false })
    styleEl := none
    observerConnected := false
    updateTimeout := none }

/-- An item handed to the vault "create" event callback: the TFolder object
for a new folder, or the path of a new file. -/
inductive VaultItem : Type
  | folderItem (f : Folder)
  | fileItem (path : String)
deriving DecidableEq, Repr

/-- The vault "create" event handler registered in `onload`
(src/main.ts lines 16-24): when the created entry is a folder, call
`createFolderNote` directly (no prior resolve); in every case schedule a
debounced update. Returns the create-call effects and the new timer state
(a file creation performs no `createFolderNote` call, recorded as an empty
effect record). -/
def handleCreateEvent (vault : Vault) (ioOk : Bool) (item : VaultItem)
    (pending : Option Nat) (now : Nat) : CreateOut × Option Nat :=
  match item with
  | VaultItem.folderItem f => (createFolderNote vault ioOk f, debouncedUpdate pending now)
  | VaultItem.fileItem _ => (⟨none, [], false⟩, debouncedUpdate pending now)

/-! Concrete sample data used by witnesses and counterexamples. -/

/-- A top-level folder `Projects` whose parent is the vault root. -/
def projectsFolder : Folder := ⟨"Projects", "Projects", some "/"⟩

/-- A vault holding only the folder `Projects`. -/
def vaultNoNotes : Vault := [("Projects", Entry.folder)]

/-- A vault with folder notes at both candidate locations for `Projects`. -/
def vaultBoth : Vault :=
  [("Projects", Entry.folder), ("Projects.md", Entry.file),
   ("Projects/Projects.md", Entry.file)]

/-- A vault with a folder note at the sibling location only. -/
def vaultSiblingOnly : Vault :=
  [("Projects", Entry.folder), ("Projects.md", Entry.file)]

/-- A vault where a folder occupies the sibling note path, so `vault.create`
at that path rejects. -/
def vaultCollision : Vault :=
  [("Projects", Entry.folder), ("Projects.md", Entry.folder)]

/-- A panel holding a single unmarked row for `Projects`, with no
interceptor installed. -/
def freshDom : Dom :=
  fun p => if p = "Projects" then some ⟨false, 0⟩ else none

/-- Plugin state right after the bind pass ran over `freshDom`, with a style
element installed, the observer connected and a timer pending. -/
def boundState : PluginState :=
  ⟨attachClickHandlers [projectsFolder] freshDom, some ⟨[]⟩, true, some 5⟩

/-! Helper lemmas shared by the claim theorems. -/

lemma ensure_opened_eq_note (vault : Vault) (ioOk : Bool) (folder : Folder) :
    (openOrCreateFolderNote vault ioOk folder).opened
      = (openOrCreateFolderNote vault ioOk folder).note := by
  unfold openOrCreateFolderNote
  cases getFolderNote vault folder <;> rfl

lemma hideSelectors_go_mem (vault : Vault) (folders : List Folder) :
    ∀ (acc : List String) (p : String),
      p ∈ folders.foldl
            (fun selectors f =>
              match getFolderNote vault f with
              | some note => selectors ++ [note]
              | none => selectors)
            acc
      ↔ p ∈ acc ∨ ∃ f ∈ folders, getFolderNote vault f = some p := by
  induction folders with
  | nil => intro acc p; simp
  | cons g gs ih =>
      intro acc p
      rw [List.foldl_cons, ih]
      cases hg : getFolderNote vault g with
      | none =>
          constructor
          · rintro (h | ⟨f, hf, hfp⟩)
            · exact Or.inl h
            · exact Or.inr ⟨f, List.mem_cons_of_mem g hf, hfp⟩
          · rintro (h | ⟨f, hf, hfp⟩)
            · exact Or.inl h
            · rcases List.mem_cons.mp hf with rfl | hf
              · rw [hg] at hfp; cases hfp
              · exact Or.inr ⟨f, hf, hfp⟩
      | some note =>
          constructor
          · rintro (h | ⟨f, hf, hfp⟩)
            · rcases List.mem_append.mp h with h | h
              · exact Or.inl h
              · refine Or.inr ⟨g, List.mem_cons_self g gs, ?_⟩
                rw [hg, List.mem_singleton.mp h]
            · exact Or.inr ⟨f, List.mem_cons_of_mem g hf, hfp⟩
          · rintro (h | ⟨f, hf, hfp⟩)
            · exact Or.inl (List.mem_append.mpr (Or.inl h))
            · rcases List.mem_cons.mp hf with rfl | hf
              · rw [hg] at hfp
                refine Or.inl (List.mem_append.mpr (Or.inr ?_))
                rw [List.mem_singleton]
                exact (Option.some.injEq note p ▸ hfp).symm ▸ rfl
              · exact Or.inr ⟨f, hf, hfp⟩

lemma bindOne_eq (dom : Dom) (path : String) :
    ((dom path = none ∨ ∃ row, dom path = some row ∧ row.handled = true)
        ∧ bindOne dom path = dom)
    ∨ ∃ row, dom path = some row ∧ row.handled = false
        ∧ bindOne dom path
            = fun p => if p = path then some ⟨true, row.listeners + 1⟩ else dom p := by
  unfold bindOne
  cases hd : dom path with
  | none => exact Or.inl ⟨Or.inl rfl, rfl⟩
  | some row =>
      cases hrow : row.handled with
      | true => exact Or.inl ⟨Or.inr ⟨row, rfl, hrow⟩, by simp [hrow]⟩
      | false => exact Or.inr ⟨row, rfl, hrow, by simp [hrow]⟩

lemma bindOne_ne (dom : Dom) (path p : String) (h : p ≠ path) :
    bindOne dom path p = dom p := by
  rcases bindOne_eq dom path with ⟨_, heq⟩ | ⟨row, _, _, heq⟩
  · rw [heq]
  · rw [heq]; simp [h]

lemma bindOne_settles (dom : Dom) (path : String) :
    ∀ r, bindOne dom path path = some r → r.handled = true := by
  intro r h
  rcases bindOne_eq dom path with ⟨hcase, heq⟩ | ⟨row, hd, _, heq⟩
  · rw [heq] at h
    rcases hcase with hnone | ⟨row, hd, hrow⟩
    · rw [hnone] at h; cases h
    · rw [hd] at h
      cases h
      exact hrow
  · rw [heq] at h
    simp at h
    rw [← h]

lemma bindOne_preserves_handled (dom : Dom) (q p : String)
    (h : ∀ r, dom p = some r → r.handled = true) :
    ∀ r, bindOne dom q p = some r → r.handled = true := by
  intro r hr
  by_cases hpq : p = q
  · exact bindOne_settles dom q r (hpq ▸ hr)
  · rw [bindOne_ne dom q p hpq] at hr
    exact h r hr

lemma bindOne_of_settled (dom : Dom) (path : String)
    (h : ∀ r, dom path = some r → r.handled = true) :
    bindOne dom path = dom := by
  rcases bindOne_eq dom path with ⟨_, heq⟩ | ⟨row, hd, hrow, _⟩
  · exact heq
  · rw [h row hd] at hrow
    cases hrow

lemma attach_preserves_handled (folders : List Folder) :
    ∀ (dom : Dom) (p : String), (∀ r, dom p = some r → r.handled = true) →
      ∀ r, attachClickHandlers folders dom p = some r → r.handled = true := by
  induction folders with
  | nil => intro dom p h r hr; exact h r hr
  | cons g gs ih =>
      intro dom p h r hr
      exact ih (bindOne dom g.path) p (bindOne_preserves_handled dom g.path p h) r hr

lemma attach_settles (folders : List Folder) (dom : Dom) :
    ∀ f ∈ folders, ∀ r, attachClickHandlers folders dom f.path = some r →
      r.handled = true := by
  induction folders generalizing dom with
  | nil => simp
  | cons g gs ih =>
      intro f hf
      rcases List.mem_cons.mp hf with rfl | hfs
      · exact attach_preserves_handled gs (bindOne dom f.path) f.path
          (bindOne_settles dom f.path)
      · exact ih (bindOne dom g.path) f hfs

lemma attach_of_settled (folders : List Folder) (dom : Dom)
    (h : ∀ f ∈ folders, ∀ r, dom f.path = some r → r.handled = true) :
    attachClickHandlers folders dom = dom := by
  induction folders generalizing dom with
  | nil => rfl
  | cons g gs ih =>
      have hg : bindOne dom g.path = dom :=
        bindOne_of_settled dom g.path (h g (List.mem_cons_self g gs))
      have hstep : attachClickHandlers (g :: gs) dom
          = attachClickHandlers gs (bindOne dom g.path) := rfl
      rw [hstep, hg]
      exact ih dom (fun f hf => h f (List.mem_cons_of_mem g hf))

lemma bindOne_inv (dom : Dom) (q : String)
    (h : ∀ p r, dom p = some r →
      (r.handled = true ∧ r.listeners = 1) ∨ (r.handled = false ∧ r.listeners = 0)) :
    ∀ p r, bindOne dom q p = some r →
      (r.handled = true ∧ r.listeners = 1) ∨ (r.handled = false ∧ r.listeners = 0) := by
  intro p r hr
  rcases bindOne_eq dom q with ⟨_, heq⟩ | ⟨row, hd, hrow, heq⟩
  · rw [heq] at hr; exact h p r hr
  · rw [heq] at hr
    change (if p = q then some ⟨true, row.listeners + 1⟩ else dom p) = some r at hr
    by_cases hpq : p = q
    · rw [if_pos hpq] at hr
      rcases h q row hd with ⟨h1, _⟩ | ⟨_, h2⟩
      · rw [hrow] at h1; cases h1
      · cases hr
        left
        exact ⟨rfl, by rw [h2]⟩
    · rw [if_neg hpq] at hr; exact h p r hr

lemma attach_inv (folders : List Folder) :
    ∀ (dom : Dom), (∀ p r, dom p = some r →
        (r.handled = true ∧ r.listeners = 1) ∨ (r.handled = false ∧ r.listeners = 0)) →
      ∀ p r, attachClickHandlers folders dom p = some r →
        (r.handled = true ∧ r.listeners = 1) ∨ (r.handled = false ∧ r.listeners = 0) := by
  induction folders with
  | nil => intro dom h p r hr; exact h p r hr
  | cons g gs ih =>
      intro dom h p r hr
      exact ih (bindOne dom g.path) (bindOne_inv dom g.path h) p r hr

lemma debounceRun_quiet (ts : List Nat) :
    ∀ t : Nat, List.Chain' (fun a b => a ≤ b ∧ b < a + 100) (t :: ts) →
      debounceRun (some (t + 100)) ts = [ts.getLastD t + 100] := by
  induction ts with
  | nil => intro t _; rfl
  | cons t1 ts ih =>
      intro t hchain
      have h1 : t ≤ t1 ∧ t1 < t + 100 := (List.chain'_cons.mp hchain).1
      have h2 : List.Chain' (fun a b => a ≤ b ∧ b < a + 100) (t1 :: ts) :=
        (List.chain'_cons.mp hchain).2
      have hlt : ¬ (t + 100 ≤ t1) := by omega
      show debounceRun (some (t + 100)) (t1 :: ts) = _
      rw [debounceRun, if_neg hlt]
      have hrec := ih t1 h2
      have hlast : (t1 :: ts).getLastD t = ts.getLastD t1 := List.getLastD_cons t t1 ts
      rw [hlast]
      exact hrec

/-! Claim theorems. -/

/-- C1 counterexample: for the folder `Projects` (no note at either candidate
location in `vaultNoNotes`), `openOrCreateFolderNote` issues exactly one
create request with empty content, but at `Projects.md` — the sibling
location — which differs from the inside location `Projects/Projects.md`
the claim names. -/
theorem ensureCreatesSiblingNotInside :
    (openOrCreateFolderNote vaultNoNotes true projectsFolder).requests
      = [("Projects.md", "")]
    ∧ insideCandidate projectsFolder = "Projects/Projects.md"
    ∧ createNotePath projectsFolder ≠ insideCandidate projectsFolder := by
  refine ⟨by decide, by decide, by decide⟩

/-- C1 (amended): for every folder with no note at either candidate location
and no entry occupying the sibling note path, when host creation succeeds,
`openOrCreateFolderNote` issues exactly one create request, with empty
content, at the sibling location computed by `createNotePath`
(`parent/name.md`, or `name.md` when the parent is missing, the root, or
empty), and returns that note. -/
theorem ensureCreatesAtSibling (vault : Vault) (folder : Folder)
    (hresolve : getFolderNote vault folder = none)
    (hfree : lookupVault vault (createNotePath folder) = none) :
    (openOrCreateFolderNote vault true folder).requests
      = [(createNotePath folder, "")]
    ∧ (openOrCreateFolderNote vault true folder).note
      = some (createNotePath folder) := by
  have hc : createFolderNote vault true folder
      = ⟨some (createNotePath folder), [(createNotePath folder, "")], false⟩ := by
    simp [createFolderNote, hfree]
  constructor <;> simp [openOrCreateFolderNote, hresolve, hc]

/-- C1 witness: the amended claim instantiated at `vaultNoNotes` and the
folder `Projects`. -/
theorem ensureCreatesAtSibling_witness :
    (getFolderNote vaultNoNotes projectsFolder = none
      ∧ lookupVault vaultNoNotes (createNotePath projectsFolder) = none)
    ∧ (openOrCreateFolderNote vaultNoNotes true projectsFolder).requests
        = [(createNotePath projectsFolder, "")] :=
  ⟨⟨by decide, by decide⟩,
   (ensureCreatesAtSibling vaultNoNotes projectsFolder (by decide) (by decide)).1⟩

/-- C2: `getFolderNote` agrees everywhere with the spec-side resolver (check
the sibling candidate first, the inside candidate second, return the first
that is a file, else none); in particular, when files exist at both
candidate locations it returns the sibling one. -/
theorem getFolderNoteMatchesSpec (vault : Vault) (folder : Folder) :
    getFolderNote vault folder = resolveSpec vault folder
    ∧ (∀ sp, siblingCandidate folder = some sp →
        lookupVault vault sp = some Entry.file →
        lookupVault vault (insideCandidate folder) = some Entry.file →
        getFolderNote vault folder = some sp) := by
  constructor
  · unfold getFolderNote resolveSpec
    cases hs : siblingCandidate folder with
    | none =>
        by_cases hi : lookupVault vault (insideCandidate folder) = some Entry.file <;>
          simp [List.find?, hi]
    | some sp =>
        by_cases h1 : lookupVault vault sp = some Entry.file
        · simp [List.find?, h1]
        · by_cases hi : lookupVault vault (insideCandidate folder) = some Entry.file <;>
            simp [List.find?, h1, hi]
  · intro sp hs h1 _
    unfold getFolderNote
    rw [hs]
    simp [h1]

/-- C2 witness: with notes at both locations for `Projects`, resolution
returns the sibling note `Projects.md`. -/
theorem getFolderNoteMatchesSpec_witness :
    (siblingCandidate projectsFolder = some "Projects.md"
      ∧ lookupVault vaultBoth "Projects.md" = some Entry.file
      ∧ lookupVault vaultBoth (insideCandidate projectsFolder) = some Entry.file)
    ∧ getFolderNote vaultBoth projectsFolder = some "Projects.md" :=
  ⟨⟨by decide, by decide, by decide⟩,
   (getFolderNoteMatchesSpec vaultBoth projectsFolder).2 "Projects.md"
     (by decide) (by decide) (by decide)⟩

/-- C3: for a folder with a note at the sibling location only, `getFolderNote`
returns that sibling note, and `openOrCreateFolderNote` issues no create
request at all (in particular none at the inside location), whatever the
host I/O outcome would be. -/
theorem resolveSiblingOnlyNoCreate (vault : Vault) (folder : Folder) (sp : String)
    (hsib : siblingCandidate folder = some sp)
    (hfile : lookupVault vault sp = some Entry.file)
    (hinside : lookupVault vault (insideCandidate folder) ≠ some Entry.file) :
    getFolderNote vault folder = some sp
    ∧ ∀ ioOk, (openOrCreateFolderNote vault ioOk folder).requests = [] := by
  have hres : getFolderNote vault folder = some sp := by
    unfold getFolderNote
    rw [hsib]
    simp [hfile]
  exact ⟨hres, fun ioOk => by simp [openOrCreateFolderNote, hres]⟩

/-- C3 witness: `vaultSiblingOnly` has only the sibling note; resolution
returns it and ensure creates nothing. -/
theorem resolveSiblingOnlyNoCreate_witness :
    (siblingCandidate projectsFolder = some "Projects.md"
      ∧ lookupVault vaultSiblingOnly "Projects.md" = some Entry.file
      ∧ lookupVault vaultSiblingOnly (insideCandidate projectsFolder)
          ≠ some Entry.file)
    ∧ getFolderNote vaultSiblingOnly projectsFolder = some "Projects.md" :=
  ⟨⟨by decide, by decide, by decide⟩,
   (resolveSiblingOnlyNoCreate vaultSiblingOnly projectsFolder "Projects.md"
     (by decide) (by decide) (by decide)).1⟩

/-- C4: `updateHiddenFolderNotes` replaces the style block wholesale — its
output does not depend on the previous block — and a path is in the new
selector set exactly when some loaded folder currently resolves to it, so
no stale selector survives. -/
theorem updateHiddenWholesale (vault : Vault) (folders : List Folder)
    (prev : StyleBlock) :
    updateHiddenFolderNotes vault folders prev
      = updateHiddenFolderNotes vault folders ⟨[]⟩
    ∧ ∀ p, p ∈ (updateHiddenFolderNotes vault folders prev).selectors ↔
        ∃ f ∈ folders, getFolderNote vault f = some p := by
  refine ⟨rfl, fun p => ?_⟩
  show p ∈ hideSelectors vault folders ↔ _
  unfold hideSelectors
  rw [hideSelectors_go_mem]
  simp

/-- C4 witness: a stale selector in the previous block does not survive, and
the currently resolved note does appear. -/
theorem updateHiddenWholesale_witness :
    "Projects.md"
      ∈ (updateHiddenFolderNotes vaultSiblingOnly [projectsFolder]
          ⟨["Stale.md"]⟩).selectors
    ∧ "Stale.md"
      ∉ (updateHiddenFolderNotes vaultSiblingOnly [projectsFolder]
          ⟨["Stale.md"]⟩).selectors := by
  constructor
  · exact ((updateHiddenWholesale vaultSiblingOnly [projectsFolder]
      ⟨["Stale.md"]⟩).2 "Projects.md").mpr ⟨projectsFolder, by decide, by decide⟩
  · intro hmem
    rcases ((updateHiddenWholesale vaultSiblingOnly [projectsFolder]
      ⟨["Stale.md"]⟩).2 "Stale.md").mp hmem with ⟨f, hf, hfp⟩
    rcases List.mem_singleton.mp hf with rfl
    revert hfp
    decide

/-- C5: the bind pass is idempotent — a second run over an unchanged panel
changes nothing — and starting from a panel with no marker and no installed
interceptor it leaves every folder's row marked with exactly one
interceptor; a row already carrying the marker is skipped wholesale, and an
unmarked row is marked and receives exactly one new interceptor. -/
theorem attachClickHandlersIdem (folders : List Folder) (dom : Dom)
    (hfresh : ∀ p r, dom p = some r → r.handled = false ∧ r.listeners = 0) :
    attachClickHandlers folders (attachClickHandlers folders dom)
      = attachClickHandlers folders dom
    ∧ (∀ f ∈ folders, ∀ r, attachClickHandlers folders dom f.path = some r →
        r.handled = true ∧ r.listeners = 1)
    ∧ (∀ (d : Dom) (q : String) (r : Row), d q = some r → r.handled = true →
        bindOne d q = d)
    ∧ (∀ (d : Dom) (q : String) (r : Row), d q = some r → r.handled = false →
        bindOne d q q = some ⟨true, r.listeners + 1⟩) := by
  refine ⟨?_, ?_, ?_, ?_⟩
  · exact attach_of_settled folders (attachClickHandlers folders dom)
      (fun f hf => attach_settles folders dom f hf)
  · intro f hf r hr
    have hhandled : r.handled = true := attach_settles folders dom f hf r hr
    have hinv := attach_inv folders dom
      (fun p r h => Or.inr (hfresh p r h)) f.path r hr
    rcases hinv with ⟨_, h1⟩ | ⟨h0, _⟩
    · exact ⟨hhandled, h1⟩
    · rw [hhandled] at h0; cases h0
  · intro d q r hd hr
    exact bindOne_of_settled d q (fun r0 h0 => by
      rw [hd] at h0; cases h0; exact hr)
  · intro d q r hd hr
    rcases bindOne_eq d q with ⟨hcase, _⟩ | ⟨row, hd2, _, heq⟩
    · rcases hcase with hnone | ⟨row, hd2, hrow⟩
      · rw [hd] at hnone; cases hnone
      · rw [hd] at hd2
        cases hd2
        rw [hr] at hrow
        cases hrow
    · rw [hd] at hd2
      cases hd2
      rw [heq]
      simp

/-- C5 witness: the idempotence conclusion instantiated at the one-row panel
`freshDom` and the folder list `[projectsFolder]`. -/
theorem attachClickHandlersIdem_witness :
    (∀ p r, freshDom p = some r → r.handled = false ∧ r.listeners = 0)
    ∧ attachClickHandlers [projectsFolder]
        (attachClickHandlers [projectsFolder] freshDom)
      = attachClickHandlers [projectsFolder] freshDom := by
  have hfresh : ∀ p r, freshDom p = some r → r.handled = false ∧ r.listeners = 0 := by
    intro p r h
    unfold freshDom at h
    by_cases hp : p = "Projects"
    · rw [if_pos hp] at h
      cases h
      exact ⟨rfl, rfl⟩
    · rw [if_neg hp] at h
      cases h
  exact ⟨hfresh, (attachClickHandlersIdem [projectsFolder] freshDom hfresh).1⟩

/-- C6: the click interceptor ignores clicks within the collapse indicator
(the host default proceeds untouched); any other click suppresses the
default, stops propagation, requests `openOrCreateFolderNote`, and opens
exactly the note it returns — in particular no open happens when no note is
produced. -/
theorem clickInterceptorContract (vault : Vault) (ioOk : Bool) (folder : Folder)
    (evt : ClickEvent) :
    (evt.onCollapseIndicator = true →
        handleClick vault ioOk folder evt = ⟨false, false, false, [], none⟩)
    ∧ (evt.onCollapseIndicator = false →
        (handleClick vault ioOk folder evt).defaultPrevented = true
        ∧ (handleClick vault ioOk folder evt).propagationStopped = true
        ∧ (handleClick vault ioOk folder evt).ensureRequested = true
        ∧ (handleClick vault ioOk folder evt).opened
            = (openOrCreateFolderNote vault ioOk folder).note)
    ∧ (evt.onCollapseIndicator = false →
        (openOrCreateFolderNote vault ioOk folder).note = none →
        (handleClick vault ioOk folder evt).opened = none) := by
  refine ⟨fun h => by simp [handleClick, h], fun h => ?_, fun h hn => ?_⟩
  · refine ⟨by simp [handleClick, h], by simp [handleClick, h],
      by simp [handleClick, h], ?_⟩
    simp [handleClick, h]
    exact ensure_opened_eq_note vault ioOk folder
  · simp [handleClick, h]
    rw [ensure_opened_eq_note vault ioOk folder, hn]

/-- C6 witness: a click outside the collapse indicator on a folder whose
note creation fails yields no open action. -/
theorem clickInterceptorContract_witness :
    ((⟨false⟩ : ClickEvent).onCollapseIndicator = false
      ∧ (openOrCreateFolderNote vaultCollision true projectsFolder).note = none)
    ∧ (handleClick vaultCollision true projectsFolder ⟨false⟩).opened = none :=
  ⟨⟨by decide, by decide⟩,
   (clickInterceptorContract vaultCollision true projectsFolder ⟨false⟩).2.2
     (by decide) (by decide)⟩

/-- C7: when resolution finds nothing and the fallback creation fails, the
failure is logged and swallowed: `openOrCreateFolderNote` yields no note and
performs no open action. -/
theorem createFailureNoOpen (vault : Vault) (ioOk : Bool) (folder : Folder)
    (hresolve : getFolderNote vault folder = none)
    (hfail : (createFolderNote vault ioOk folder).result = none) :
    (openOrCreateFolderNote vault ioOk folder).note = none
    ∧ (openOrCreateFolderNote vault ioOk folder).logged = true
    ∧ (openOrCreateFolderNote vault ioOk folder).opened = none := by
  have hlog : (createFolderNote vault ioOk folder).logged = true := by
    simp only [createFolderNote] at hfail ⊢
    cases hl : lookupVault vault (createNotePath folder) with
    | none =>
        cases ioOk with
        | true => simp [hl] at hfail
        | false => simp [hl]
    | some e =>
        cases e with
        | file => simp [hl] at hfail
        | folder => simp [hl]
  refine ⟨?_, ?_, ?_⟩ <;> simp [openOrCreateFolderNote, hresolve, hfail, hlog]

/-- C7 witness: a folder entry occupies the sibling note path, so creation
rejects; ensure returns no note and opens nothing. -/
theorem createFailureNoOpen_witness :
    (getFolderNote vaultCollision projectsFolder = none
      ∧ (createFolderNote vaultCollision true projectsFolder).result = none)
    ∧ (openOrCreateFolderNote vaultCollision true projectsFolder).opened = none :=
  ⟨⟨by decide, by decide⟩,
   (createFailureNoOpen vaultCollision true projectsFolder
     (by decide) (by decide)).2.2⟩

/-- C8: `debouncedUpdate` unconditionally cancels the pending timer and
schedules the recompute at now + 100; over any burst of triggers whose
consecutive gaps are all under 100ms, exactly one recompute runs, at
(last trigger time) + 100. -/
theorem debounceBurstSingleRecompute (t : Nat) (ts : List Nat)
    (hchain : List.Chain' (fun a b => a ≤ b ∧ b < a + 100) (t :: ts)) :
    debounceRun none (t :: ts) = [ts.getLastD t + 100]
    ∧ ∀ pending now, debouncedUpdate pending now = some (now + 100) := by
  refine ⟨?_, fun _ _ => rfl⟩
  show debounceRun (some (t + 100)) ts = _
  exact debounceRun_quiet ts t hchain

/-- C8 witness: five trigger times within 50ms produce exactly one recompute
at 140 = 40 + 100. -/
theorem debounceBurstSingleRecompute_witness :
    List.Chain' (fun a b => a ≤ b ∧ b < a + 100) [0, 10, 20, 30, 40]
    ∧ debounceRun none [0, 10, 20, 30, 40] = [140] := by
  refine ⟨by simp [List.chain'_cons], ?_⟩
  have h := (debounceBurstSingleRecompute 0 [10, 20, 30, 40]
    (by simp [List.chain'_cons])).1
  exact h.trans (by decide)

/-- C9 counterexample: `boundState` arose from the plugin binding the fresh
one-row panel `freshDom` (zero interceptors); after `onunload` the row still
carries the interceptor the plugin installed (listener count 1, against 0
before the plugin ran), so an artifact of the plugin survives teardown in
the host UI state. -/
theorem onunloadLeavesListener :
    freshDom "Projects" = some ⟨false, 0⟩
    ∧ (onunload boundState).dom "Projects" = some ⟨false, 1⟩ := by
  refine ⟨by decide, by decide⟩

/-- C9 (amended): `onunload` clears the pending debounce timer, removes the
generated style element, disconnects the observer, and strips the
handled-marker from every row carrying it — but the click interceptors the
plugin attached to rows are left installed (listener counts are unchanged). -/
theorem onunloadClears (s : PluginState) :
    (onunload s).updateTimeout = none
    ∧ (onunload s).styleEl = none
    ∧ (onunload s).observerConnected = false
    ∧ (∀ p r, (onunload s).dom p = some r → r.handled = false)
    ∧ (∀ p, ((onunload s).dom p).map Row.listeners = (s.dom p).map Row.listeners) := by
  refine ⟨rfl, rfl, rfl, fun p r hr => ?_, fun p => ?_⟩
  · have hr2 : (s.dom p).map (fun r0 => { r0 with handled := false }) = some r := hr
    cases hd : s.dom p with
    | none => rw [hd] at hr2; cases hr2
    | some r0 =>
        rw [hd] at hr2
        cases hr2
        rfl
  · show ((s.dom p).map (fun r0 => { r0 with handled := false })).map Row.listeners
      = (s.dom p).map Row.listeners
    cases s.dom p <;> rfl

/-- C9 witness: the amended claim instantiated at `boundState`. -/
theorem onunloadClears_witness :
    (onunload boundState).updateTimeout = none
    ∧ (onunload boundState).styleEl = none
    ∧ ((onunload boundState).dom "Projects").map Row.listeners
        = (boundState.dom "Projects").map Row.listeners :=
  ⟨(onunloadClears boundState).1, (onunloadClears boundState).2.1,
   (onunloadClears boundState).2.2.2.2 "Projects"⟩

/-- C10: when a file already exists at the note path, `createFolderNote`
returns it unchanged and issues no create request and no error log — also
along the folder-creation event path, which calls `createFolderNote`
without a prior resolve. -/
theorem createNoOverwrite (vault : Vault) (ioOk : Bool) (folder : Folder)
    (pending : Option Nat) (now : Nat)
    (hexists : lookupVault vault (createNotePath folder) = some Entry.file) :
    createFolderNote vault ioOk folder
      = ⟨some (createNotePath folder), [], false⟩
    ∧ (handleCreateEvent vault ioOk (VaultItem.folderItem folder)
        pending now).1.requests = [] := by
  have h : createFolderNote vault ioOk folder
      = ⟨some (createNotePath folder), [], false⟩ := by
    simp [createFolderNote, hexists]
  exact ⟨h, by simp [handleCreateEvent, h]⟩

/-- C10 witness: the sibling note already exists in `vaultSiblingOnly`; the
folder-creation event path issues no create request. -/
theorem createNoOverwrite_witness :
    lookupVault vaultSiblingOnly (createNotePath projectsFolder)
      = some Entry.file
    ∧ (handleCreateEvent vaultSiblingOnly true
        (VaultItem.folderItem projectsFolder) none 0).1.requests = [] :=
  ⟨by decide,
   (createNoOverwrite vaultSiblingOnly true projectsFolder none 0 (by decide)).2⟩

end FolderNoteView
